import Mathlib

/-!
Verification of the Tetris game-state engine of this repository.

The definitions below are shallow embeddings of the JavaScript sources:
  * `src/utils/tetrominoes.js`  — piece catalog, factory, bag randomizer
  * `src/utils/gameLogic.js`    — board, collision, line clearing, hard drop
  * `src/utils/scoring.js`      — scoring and level functions
  * `src/hooks/useGameState.js` — the `gameStateReducer` state machine
  * `src/hooks/useGame.js`      — the game-loop drop-speed function

Conventions of the embedding:
  * JS numbers used as coordinates are `Int`; counters are `Nat`.
  * A board cell is `Option Tet` (`none` for the numeric `0` empty marker,
    `some k` for the CSS-color string `TETROMINO_COLORS[k]`, which is in
    bijection with the kind `k`).
  * JS array indexing `a[i]` is `List.get?` (out-of-range reads yield
    `undefined`, embedded as the `getD` default on paths the program
    guards, and as `Option` where a claim is about the raw access).
  * `Math.random()` is injected: functions that shuffle receive the list
    of random draws as an explicit argument.
  * The reducer's wall-clock fields (`gameStartTime`, `lastDropTime`,
    `gameEndTime`) are external-clock effects and are not modelled; no
    claim mentions them.
-/

/-- The seven tetromino kinds (`TETROMINO_TYPES` in `constants.js`). -/
inductive Tet where
  | I | O | T | S | Z | J | L
deriving DecidableEq, Repr

/-- `TETROMINO_TYPES = ['I','O','T','S','Z','J','L']`. -/
def TETROMINO_TYPES : List Tet := [.I, .O, .T, .S, .Z, .J, .L]

/-- A 4×4 occupancy mask (rows of 0/1 entries), as in `TETROMINO_SHAPES`. -/
abbrev Mask := List (List Nat)

/-- The rotation tables of `tetrominoes.js` (`TETROMINO_SHAPES`), verbatim. -/
def TETROMINO_SHAPES : Tet → List Mask
  | .I =>
    [[[0, 0, 0, 0], [1, 1, 1, 1], [0, 0, 0, 0], [0, 0, 0, 0]],
     [[0, 0, 1, 0], [0, 0, 1, 0], [0, 0, 1, 0], [0, 0, 1, 0]],
     [[0, 0, 0, 0], [1, 1, 1, 1], [0, 0, 0, 0], [0, 0, 0, 0]],
     [[0, 0, 1, 0], [0, 0, 1, 0], [0, 0, 1, 0], [0, 0, 1, 0]]]
  | .O =>
    [[[0, 0, 0, 0], [0, 1, 1, 0], [0, 1, 1, 0], [0, 0, 0, 0]],
     [[0, 0, 0, 0], [0, 1, 1, 0], [0, 1, 1, 0], [0, 0, 0, 0]],
     [[0, 0, 0, 0], [0, 1, 1, 0], [0, 1, 1, 0], [0, 0, 0, 0]],
     [[0, 0, 0, 0], [0, 1, 1, 0], [0, 1, 1, 0], [0, 0, 0, 0]]]
  | .T =>
    [[[0, 0, 0, 0], [0, 1, 0, 0], [1, 1, 1, 0], [0, 0, 0, 0]],
     [[0, 0, 0, 0], [0, 1, 0, 0], [0, 1, 1, 0], [0, 1, 0, 0]],
     [[0, 0, 0, 0], [0, 0, 0, 0], [1, 1, 1, 0], [0, 1, 0, 0]],
     [[0, 0, 0, 0], [0, 1, 0, 0], [1, 1, 0, 0], [0, 1, 0, 0]]]
  | .S =>
    [[[0, 0, 0, 0], [0, 1, 1, 0], [1, 1, 0, 0], [0, 0, 0, 0]],
     [[0, 0, 0, 0], [0, 1, 0, 0], [0, 1, 1, 0], [0, 0, 1, 0]],
     [[0, 0, 0, 0], [0, 1, 1, 0], [1, 1, 0, 0], [0, 0, 0, 0]],
     [[0, 0, 0, 0], [0, 1, 0, 0], [0, 1, 1, 0], [0, 0, 1, 0]]]
  | .Z =>
    [[[0, 0, 0, 0], [1, 1, 0, 0], [0, 1, 1, 0], [0, 0, 0, 0]],
     [[0, 0, 0, 0], [0, 0, 1, 0], [0, 1, 1, 0], [0, 1, 0, 0]],
     [[0, 0, 0, 0], [1, 1, 0, 0], [0, 1, 1, 0], [0, 0, 0, 0]],
     [[0, 0, 0, 0], [0, 0, 1, 0], [0, 1, 1, 0], [0, 1, 0, 0]]]
  | .J =>
    [[[0, 0, 0, 0], [1, 0, 0, 0], [1, 1, 1, 0], [0, 0, 0, 0]],
     [[0, 0, 0, 0], [0, 1, 1, 0], [0, 1, 0, 0], [0, 1, 0, 0]],
     [[0, 0, 0, 0], [0, 0, 0, 0], [1, 1, 1, 0], [0, 0, 1, 0]],
     [[0, 0, 0, 0], [0, 1, 0, 0], [0, 1, 0, 0], [1, 1, 0, 0]]]
  | .L =>
    [[[0, 0, 0, 0], [0, 0, 1, 0], [1, 1, 1, 0], [0, 0, 0, 0]],
     [[0, 0, 0, 0], [0, 1, 0, 0], [0, 1, 0, 0], [0, 1, 1, 0]],
     [[0, 0, 0, 0], [0, 0, 0, 0], [1, 1, 1, 0], [1, 0, 0, 0]],
     [[0, 0, 0, 0], [1, 1, 0, 0], [0, 1, 0, 0], [0, 1, 0, 0]]]

/-- JS array read `l[i]` for an `Int` index: a negative index (a plain
property name in JS, absent on an array) reads `undefined`, embedded as
`none`. -/
def jsArrayGet (l : List α) (i : Int) : Option α :=
  if 0 ≤ i then l.get? i.toNat else none

/-- The `shape` field computed on line 219 of `tetrominoes.js`:
`TETROMINO_SHAPES[type][rotation % 4]`, where `%` is the JS remainder
(truncated division, `Int.tmod`), applied to an arbitrary integer
rotation. -/
def createTetrominoShapeField (type : Tet) (rotation : Int) : Option Mask :=
  jsArrayGet (TETROMINO_SHAPES type) (rotation.tmod 4)

/-- Total shape lookup used by the engine embedding: for the reducer all
rotations are the naturals `0..3`, on which `r % 4` agrees with the JS
remainder and the table read is in range. -/
def shapeOf (type : Tet) (rotation : Nat) : Mask :=
  ((TETROMINO_SHAPES type).get? (rotation % 4)).getD []

/-- An active piece (`createTetromino`'s record; the `color` field is the
image of `type` under the bijection `TETROMINO_COLORS` and is omitted). -/
structure Tetromino where
  type : Tet
  x : Int
  y : Int
  rotation : Nat
  shape : Mask
deriving DecidableEq, Repr

/-- `createTetromino(type, x = 3, y = -1, rotation = 0)`. -/
def createTetromino (type : Tet) (x : Int := 3) (y : Int := -1)
    (rotation : Nat := 0) : Tetromino :=
  { type := type, x := x, y := y, rotation := rotation % 4
    shape := shapeOf type rotation }

/-- `rotateTetromino`: clockwise, rotation `(r+1) % 4`, shape recomputed. -/
def rotateTetromino (t : Tetromino) : Tetromino :=
  let newRotation := (t.rotation + 1) % 4
  { t with rotation := newRotation, shape := shapeOf t.type newRotation }

/-- `rotateTetrominoCounterClockwise`: rotation `(r+3) % 4`. -/
def rotateTetrominoCounterClockwise (t : Tetromino) : Tetromino :=
  let newRotation := (t.rotation + 3) % 4
  { t with rotation := newRotation, shape := shapeOf t.type newRotation }

/-- In-place swap of positions `i` and `j` of a list (the destructuring
assignment `[bag[i], bag[j]] = [bag[j], bag[i]]`). -/
def listSwap (l : List α) (i j : Nat) : List α :=
  match l.get? i, l.get? j with
  | some a, some b => (l.set i b).set j a
  | _, _ => l

/-- `createTetrominoBag()`: Fisher–Yates shuffle of `TETROMINO_TYPES`.
The loop runs `i = 6, 5, ..., 1`; the draw `Math.floor(Math.random()*(i+1))`
is injected as `rand`, reduced into the JS range `[0, i]` by `% (i+1)`. -/
def createTetrominoBag (rand : List Nat) : List Tet :=
  (List.range 6).foldl
    (fun bag k =>
      let i := 6 - k
      let j := ((rand.get? k).getD 0) % (i + 1)
      listSwap bag i j)
    TETROMINO_TYPES

/-- A board cell: `none` is the empty marker `0`, `some k` the color tag
of kind `k`. -/
abbrev Cell := Option Tet

/-- The board: a list of rows, each a list of cells (`gameLogic.js`). -/
abbrev Board := List (List Cell)

/-- `BOARD_WIDTH` from `constants.js`. -/
def BOARD_WIDTH : Nat := 10

/-- `BOARD_HEIGHT` from `constants.js`. -/
def BOARD_HEIGHT : Nat := 20

/-- `LINES_PER_LEVEL` from `constants.js`. -/
def LINES_PER_LEVEL : Nat := 10

/-- `createEmptyBoard()`: 20 rows of 10 empty cells. -/
def createEmptyBoard : Board :=
  List.replicate BOARD_HEIGHT (List.replicate BOARD_WIDTH none)

/-- Read `shape[r][c]` of a mask, `0` outside the stored rows. -/
def shapeCell (s : Mask) (r c : Nat) : Nat :=
  (((s.get? r).getD []).get? c).getD 0

/-- Read `board[y][x]` for in-range nonnegative indices. -/
def cellAt (b : Board) (y x : Nat) : Cell :=
  (((b.get? y).getD []).get? x).getD none

/-- `canPlacePiece(board, tetromino, x, y)` of `gameLogic.js`: the nested
index loops over `shape`, failing on a set cell that is out of the
horizontal bounds, at or below the bottom, or (when its row is
nonnegative) over an occupied board cell. -/
def canPlacePiece (board : Board) (t : Tetromino)
    (x : Int := t.x) (y : Int := t.y) : Bool :=
  (List.range t.shape.length).all fun row =>
    (List.range ((t.shape.get? row).getD []).length).all fun col =>
      if shapeCell t.shape row col ≠ 0 then
        let newX := x + col
        let newY := y + row
        if newX < 0 ∨ BOARD_WIDTH ≤ newX ∨ BOARD_HEIGHT ≤ newY then false
        else if 0 ≤ newY ∧ (cellAt board newY.toNat newX.toNat).isSome then false
        else true
      else true

/-- `getTetrominoPositions(tetromino)`: absolute coordinates of the set
mask cells, in row-major order. -/
def getTetrominoPositions (t : Tetromino) : List (Int × Int) :=
  (List.range t.shape.length).flatMap fun y =>
    (List.range ((t.shape.get? y).getD []).length).filterMap fun x =>
      if shapeCell t.shape y x ≠ 0 then some (t.x + x, t.y + y) else none

/-- Write one board cell (`newBoard[y][x] = v`). -/
def setCell (b : Board) (y x : Nat) (v : Cell) : Board :=
  b.set y (((b.get? y).getD []).set x v)

/-- `placePiece(board, tetromino)`: stamp every in-bounds absolute
position with the piece's color tag. -/
def placePiece (board : Board) (t : Tetromino) : Board :=
  (getTetrominoPositions t).foldl
    (fun nb pos =>
      if 0 ≤ pos.2 ∧ pos.2 < (BOARD_HEIGHT : Int) ∧ 0 ≤ pos.1 ∧ pos.1 < (BOARD_WIDTH : Int) then
        setCell nb pos.2.toNat pos.1.toNat (some t.type)
      else nb)
    board

/-- A row is complete when `board[y].every(cell => cell !== 0)`. -/
def isCompleteRow (r : List Cell) : Bool :=
  r.all fun c => c.isSome

/-- `findCompleteLines(board)`: ascending indices of complete rows. -/
def findCompleteLines (board : Board) : List Nat :=
  (List.range BOARD_HEIGHT).filter fun y =>
    isCompleteRow ((board.get? y).getD [])

/-- `clearLines(board)`: drop the complete rows, keep the rest in order,
prepend empty rows until the height is back to 20 (the `unshift` loop),
and return the new board with the number of cleared lines. -/
def clearLines (board : Board) : Board × Nat :=
  let completeLines := findCompleteLines board
  if completeLines.length = 0 then (board, 0)
  else
    let newBoard := (List.range BOARD_HEIGHT).filterMap fun y =>
      if y ∈ completeLines then none else some ((board.get? y).getD [])
    (List.replicate (BOARD_HEIGHT - newBoard.length) (List.replicate BOARD_WIDTH none)
       ++ newBoard,
     completeLines.length)

/-- `isGameOver(board, tetromino)` of `gameLogic.js`: the piece cannot be
placed at its own position. -/
def isGameOver (board : Board) (t : Tetromino) : Bool :=
  ! canPlacePiece board t t.x t.y

/-- The `while` loop body of `getHardDropDistance`, with explicit fuel:
`some d` when the loop exits with distance `d`, `none` when the fuel runs
out before the placement test fails. -/
def hardDropLoop (board : Board) (t : Tetromino) : Nat → Nat → Option Nat
  | 0, _ => none
  | fuel + 1, distance =>
    if canPlacePiece board t t.x (t.y + distance + 1) then
      hardDropLoop board t fuel (distance + 1)
    else some distance

/-- `getHardDropDistance(board, tetromino)`. The fuel `(20 - y)⁺ + 1`
dominates the loop: any set mask cell leaves the board once
`y + distance + 1 ≥ 20`, so for a piece with a set cell the loop exits
within the fuel (proved below). -/
def getHardDropDistance (board : Board) (t : Tetromino) : Nat :=
  (hardDropLoop board t ((20 - t.y).toNat + 1) 0).getD 0

/-- `calculateLevel(totalLines)` (`scoring.js`, duplicated verbatim in
`gameLogic.js`): `floor(totalLines / 10) + 1`. -/
def calculateLevel (totalLines : Nat) : Nat :=
  totalLines / LINES_PER_LEVEL + 1

/-- `calculateLineScore(linesCleared, level)` of `scoring.js`. -/
def calculateLineScore (linesCleared level : Nat) : Nat :=
  if linesCleared = 0 then 0
  else
    (match linesCleared with
     | 1 => 40
     | 2 => 100
     | 3 => 300
     | 4 => 1200
     | n => 40 * n) * level

/-- `calculateSoftDropScore(cells) = cells * POINTS.SOFT_DROP`. -/
def calculateSoftDropScore (cells : Nat) : Nat := cells * 1

/-- `calculateHardDropScore(cells) = cells * POINTS.HARD_DROP`. -/
def calculateHardDropScore (cells : Nat) : Nat := cells * 2

namespace GameLogic

/-- `calculateDropSpeed(level)` of `gameLogic.js` (lines 176–182):
`max(50, 1000 - (level - 1) * 100)`. -/
def calculateDropSpeed (level : Int) : Int :=
  max 50 (1000 - (level - 1) * 100)

end GameLogic

namespace Scoring

/-- `calculateDropSpeed(level)` of `scoring.js` (lines 85–92):
`max(50, 1000 - (level - 1) * 50)`. -/
def calculateDropSpeed (level : Int) : Int :=
  max 50 (1000 - (level - 1) * 50)

end Scoring

namespace UseGame

/-- `calculateDropSpeed(level)` of `useGame.js` (lines 18–21):
`max(INITIAL_DROP_SPEED - level * SPEED_INCREASE_PER_LEVEL, MIN_DROP_SPEED)`. -/
def calculateDropSpeed (level : Int) : Int :=
  max (1000 - level * 100) 50

end UseGame

/-- `GAME_STATES` from `constants.js`. -/
inductive GState where
  | menu | playing | paused | game_over
deriving DecidableEq, Repr

/-- The reducer state (`createInitialGameState`'s record). Wall-clock
fields are not modelled (see the header). -/
structure GameState where
  board : Board
  currentPiece : Option Tetromino
  nextPiece : Option Tetromino
  holdPiece : Option Tetromino
  canHold : Bool
  score : Nat
  lines : Nat
  level : Nat
  isGameOver : Bool
  isPaused : Bool
  gameState : GState
  playerName : String
  tetrominoBag : List Tet
  bagIndex : Nat
  shouldSpawnNext : Bool
deriving DecidableEq, Repr

/-- JS whitespace for `String.prototype.trim` (the characters the
player-name validation can meet). -/
def jsWhitespace (c : Char) : Bool :=
  c = ' ' ∨ c = '\t' ∨ c = '\n' ∨ c = '\r'

/-- `playerName.trim()`: strip leading and trailing whitespace. -/
def jsTrim (s : String) : String :=
  ⟨((s.data.dropWhile jsWhitespace).reverse.dropWhile jsWhitespace).reverse⟩

/-- `createInitialGameState(playerName)`: a menu-idle state with an empty
board; the name is kept only when its trim is nonempty. -/
def createInitialGameState (playerName : String := "") : GameState :=
  { board := createEmptyBoard
    currentPiece := none
    nextPiece := none
    holdPiece := none
    canHold := true
    score := 0
    lines := 0
    level := 1
    isGameOver := false
    isPaused := false
    gameState := .menu
    playerName := if jsTrim playerName ≠ "" then jsTrim playerName else ""
    tetrominoBag := []
    bagIndex := 0
    shouldSpawnNext := false }

/-- The reducer's action values (`GAME_ACTIONS` plus payloads). Calls to
`createTetrominoBag` inside a case receive their random draws through the
action (`rand`). The action types `DROP_PIECE`, `GAME_OVER` and
`UPDATE_SCORE` are declared in the source but have no reducer case; like
any unknown tag they fall to the default branch, represented by
`unknown`. -/
inductive GameAction where
  | initializeGame (playerName : String)
  | startGame (rand : List Nat)
  | movePiece (deltaX deltaY : Int)
  | rotatePiece
  | softDrop
  | hardDrop
  | placePieceAction
  | holdPieceAction
  | pauseGame
  | resumeGame
  | resetGame
  | spawnPiece (rand : List Nat)
  | loadState (s : GameState)
  | unknown (tag : String)
deriving DecidableEq, Repr

/-- `gameStateReducer(state, action)` of `useGameState.js`, case by case. -/
def gameStateReducer (state : GameState) (action : GameAction) : GameState :=
  match action with
  | .initializeGame playerName => createInitialGameState playerName
  | .startGame rand =>
    let bag := createTetrominoBag rand
    { state with
        gameState := .playing
        currentPiece := (bag.get? 0).map (createTetromino ·)
        nextPiece := (bag.get? 1).map (createTetromino ·)
        tetrominoBag := bag.drop 2
        bagIndex := 2
        isGameOver := false
        isPaused := false }
  | .movePiece deltaX deltaY =>
    match state.currentPiece with
    | none => state
    | some cur =>
      if state.isPaused ∨ state.isGameOver then state
      else
        let newX := cur.x + deltaX
        let newY := cur.y + deltaY
        if canPlacePiece state.board cur newX newY then
          { state with currentPiece := some { cur with x := newX, y := newY } }
        else state
  | .rotatePiece =>
    match state.currentPiece with
    | none => state
    | some cur =>
      if state.isPaused ∨ state.isGameOver then state
      else
        let rotatedPiece := rotateTetromino cur
        if canPlacePiece state.board rotatedPiece then
          { state with currentPiece := some rotatedPiece }
        else state
  | .softDrop =>
    match state.currentPiece with
    | none => state
    | some cur =>
      if state.isPaused ∨ state.isGameOver then state
      else
        let newYSoft := cur.y + 1
        if canPlacePiece state.board cur cur.x newYSoft then
          { state with
              currentPiece := some { cur with y := newYSoft }
              score := state.score + calculateSoftDropScore 1 }
        else
          let softDropPlacedBoard := placePiece state.board cur
          let cleared := clearLines softDropPlacedBoard
          let softDropNewLines := state.lines + cleared.2
          { state with
              board := cleared.1
              currentPiece := none
              score := state.score + calculateLineScore cleared.2 state.level
              lines := softDropNewLines
              level := calculateLevel softDropNewLines
              canHold := true
              shouldSpawnNext := true }
  | .hardDrop =>
    match state.currentPiece with
    | none => state
    | some cur =>
      if state.isPaused ∨ state.isGameOver then state
      else
        let dropDistance := getHardDropDistance state.board cur
        let droppedPiece := { cur with y := cur.y + dropDistance }
        let hardDropPlacedBoard := placePiece state.board droppedPiece
        let cleared := clearLines hardDropPlacedBoard
        let hardDropNewLines := state.lines + cleared.2
        { state with
            board := cleared.1
            currentPiece := none
            score := state.score + calculateHardDropScore dropDistance
              + calculateLineScore cleared.2 state.level
            lines := hardDropNewLines
            level := calculateLevel hardDropNewLines
            canHold := true
            shouldSpawnNext := true }
  | .placePieceAction =>
    match state.currentPiece with
    | none => state
    | some cur =>
      let placePieceBoard := placePiece state.board cur
      let cleared := clearLines placePieceBoard
      let placePieceNewLines := state.lines + cleared.2
      { state with
          board := cleared.1
          score := state.score + calculateLineScore cleared.2 state.level
          lines := placePieceNewLines
          level := calculateLevel placePieceNewLines
          currentPiece := none
          canHold := true
          shouldSpawnNext := true }
  | .spawnPiece rand =>
    match state.nextPiece with
    | none => state
    | some newCurrentPiece =>
      if state.isGameOver then state
      else
        let refresh : Bool := state.tetrominoBag.length ≤ state.bagIndex
        let currentBag := if refresh then createTetrominoBag rand else state.tetrominoBag
        let bagIndex := if refresh then 0 else state.bagIndex
        let newNextPiece := (currentBag.get? bagIndex).map (createTetromino ·)
        if isGameOver state.board newCurrentPiece then
          { state with
              isGameOver := true
              gameState := .game_over
              playerName := if state.playerName = "" then "Player" else state.playerName }
        else
          { state with
              currentPiece := some newCurrentPiece
              nextPiece := newNextPiece
              tetrominoBag := currentBag
              bagIndex := bagIndex + 1
              shouldSpawnNext := false }
  | .holdPieceAction =>
    match state.currentPiece with
    | none => state
    | some cur =>
      if state.isPaused ∨ state.isGameOver ∨ state.canHold = false then state
      else
        let newHoldPiece := { cur with x := 3, y := -1, rotation := 0 }
        match state.holdPiece with
        | some held =>
          { state with
              currentPiece := some { held with x := 3, y := -1 }
              holdPiece := some newHoldPiece
              canHold := false }
        | none =>
          { state with
              currentPiece := state.nextPiece
              holdPiece := some newHoldPiece
              canHold := false
              shouldSpawnNext := true }
  | .pauseGame =>
    if state.isGameOver then state
    else { state with isPaused := true, gameState := .paused }
  | .resumeGame =>
    if state.isGameOver then state
    else { state with isPaused := false, gameState := .playing }
  | .resetGame =>
    createInitialGameState (if state.playerName = "" then "Player" else state.playerName)
  | .loadState s => s
  | .unknown _ => state

/-! ## Supporting lemmas -/

/-- The all-zero 4×4 mask, used to discuss the degenerate-shape case. -/
def zeroMask : Mask :=
  [[0, 0, 0, 0], [0, 0, 0, 0], [0, 0, 0, 0], [0, 0, 0, 0]]

theorem zeroMask_shapeCell (r c : Nat) : shapeCell zeroMask r c = 0 := by
  unfold shapeCell zeroMask
  rcases r with _ | _ | _ | _ | r <;> rcases c with _ | _ | _ | _ | c <;> rfl

theorem shapeCell_lt {s : Mask} {r c : Nat} (h : shapeCell s r c ≠ 0) :
    r < s.length ∧ c < ((s.get? r).getD []).length := by
  constructor
  · by_contra hr
    rw [not_lt] at hr
    rw [shapeCell, List.get?_eq_none.mpr hr] at h
    simp at h
  · by_contra hc
    rw [not_lt] at hc
    rw [shapeCell, List.get?_eq_none.mpr hc] at h
    simp at h

/-- Characterization of `canPlacePiece` on a 4×4 shape: it succeeds
exactly when every set mask cell is inside the horizontal bounds, above
the bottom, and (when its row is visible) over an empty board cell. -/
theorem canPlace_spec (board : Board) (t : Tetromino) (x y : Int)
    (h1 : t.shape.length = 4) (h2 : ∀ r ∈ t.shape, r.length = 4) :
    canPlacePiece board t x y = true ↔
      ∀ r c : Nat, r < 4 → c < 4 → shapeCell t.shape r c ≠ 0 →
        0 ≤ x + c ∧ x + c < 10 ∧ y + r < 20 ∧
          (0 ≤ y + r → (cellAt board (y + r).toNat (x + c).toNat).isSome = false) := by
  have hrowlen : ∀ r : Nat, r < 4 → ((t.shape.get? r).getD []).length = 4 := by
    intro r hr
    have hlt : r < t.shape.length := by omega
    rw [List.get?_eq_get hlt]
    exact h2 _ (t.shape.get_mem _ hlt)
  unfold canPlacePiece
  rw [List.all_eq_true]
  constructor
  · intro h r c hr hc hset
    have hmem : r ∈ List.range t.shape.length := by
      rw [List.mem_range]; omega
    have hinner := (List.all_eq_true).mp (h r hmem) c
      (by rw [List.mem_range, hrowlen r hr]; omega)
    rw [if_pos hset] at hinner
    simp only [BOARD_WIDTH, BOARD_HEIGHT, Nat.cast_ofNat] at hinner
    split_ifs at hinner with hA hB
    push_neg at hA
    refine ⟨by omega, by omega, by omega, fun hy => ?_⟩
    rw [not_and] at hB
    simpa using hB hy
  · intro h r hrmem
    rw [List.all_eq_true]
    intro c hcmem
    rw [List.mem_range] at hrmem hcmem
    have hr : r < 4 := by omega
    have hc : c < 4 := by rw [hrowlen r hr] at hcmem; omega
    by_cases hset : shapeCell t.shape r c ≠ 0
    · rw [if_pos hset]
      obtain ⟨hx0, hx1, hy1, hocc⟩ := h r c hr hc hset
      simp only [BOARD_WIDTH, BOARD_HEIGHT, Nat.cast_ofNat]
      have hA : ¬ (x + (c : Int) < 0 ∨ (10 : Int) ≤ x + c ∨ (20 : Int) ≤ y + r) := by
        push_neg
        exact ⟨by omega, by omega, by omega⟩
      have hB : ¬ (0 ≤ y + (r : Int) ∧
          (cellAt board (y + (r : Int)).toNat (x + (c : Int)).toNat).isSome = true) := by
        rintro ⟨hy0, hsome⟩
        rw [hocc hy0] at hsome
        exact Bool.false_ne_true hsome
      rw [if_neg hA, if_neg hB]
    · rw [if_neg hset]

theorem canPlace_false_of_set_cell (board : Board) (t : Tetromino) (x y : Int)
    (r c : Nat) (hset : shapeCell t.shape r c ≠ 0) (hy : (20 : Int) ≤ y + r) :
    canPlacePiece board t x y = false := by
  obtain ⟨hrlen, hclen⟩ := shapeCell_lt hset
  rw [← Bool.not_eq_true]
  intro htrue
  unfold canPlacePiece at htrue
  rw [List.all_eq_true] at htrue
  have hinner := (List.all_eq_true).mp (htrue r (by rw [List.mem_range]; omega)) c
    (by rw [List.mem_range]; omega)
  rw [if_pos hset] at hinner
  simp only [BOARD_WIDTH, BOARD_HEIGHT, Nat.cast_ofNat] at hinner
  rw [if_pos (by omega)] at hinner
  exact Bool.false_ne_true hinner

theorem hardDropLoop_sound (board : Board) (t : Tetromino) :
    ∀ fuel d d', hardDropLoop board t fuel d = some d' →
      d ≤ d' ∧ canPlacePiece board t t.x (t.y + d' + 1) = false ∧
        ∀ i, d ≤ i → i < d' → canPlacePiece board t t.x (t.y + i + 1) = true := by
  intro fuel
  induction fuel with
  | zero => intro d d' h; exact absurd h (by simp [hardDropLoop])
  | succ fuel ih =>
    intro d d' h
    unfold hardDropLoop at h
    by_cases hc : canPlacePiece board t t.x (t.y + d + 1) = true
    · rw [if_pos hc] at h
      obtain ⟨hle, hfalse, hall⟩ := ih (d + 1) d' h
      refine ⟨by omega, hfalse, fun i hdi hid => ?_⟩
      rcases Nat.eq_or_lt_of_le hdi with heq | hlt
      · rw [← heq]; exact hc
      · exact hall i (by omega) hid
    · rw [if_neg hc, Option.some.injEq] at h
      subst h
      refine ⟨Nat.le_refl d, ?_, fun i hdi hid => by omega⟩
      rw [← Bool.not_eq_true]
      exact hc

theorem hardDropLoop_isSome (board : Board) (t : Tetromino) :
    ∀ (fuel d k : Nat), k < fuel →
      canPlacePiece board t t.x (t.y + ((d + k : Nat) : Int) + 1) = false →
      (hardDropLoop board t fuel d).isSome = true := by
  intro fuel
  induction fuel with
  | zero => intro d k hk; omega
  | succ fuel ih =>
    intro d k hk hfalse
    unfold hardDropLoop
    by_cases hc : canPlacePiece board t t.x (t.y + d + 1) = true
    · rw [if_pos hc]
      have hkpos : k ≠ 0 := by
        intro h0
        rw [h0] at hfalse
        rw [Nat.add_zero] at hfalse
        rw [hfalse] at hc
        exact Bool.false_ne_true hc
      exact ih (d + 1) (k - 1) (by omega)
        (by have : d + 1 + (k - 1) = d + k := by omega
            rw [this]; exact hfalse)
    · rw [if_neg hc]
      rfl

theorem hardDrop_fuel_reaches (board : Board) (t : Tetromino) (r c : Nat)
    (hset : shapeCell t.shape r c ≠ 0) :
    (hardDropLoop board t ((20 - t.y).toNat + 1) 0).isSome = true := by
  refine hardDropLoop_isSome board t ((20 - t.y).toNat + 1) 0 (19 - t.y).toNat
    (by omega) ?_
  refine canPlace_false_of_set_cell board t t.x
    (t.y + ((0 + (19 - t.y).toNat : Nat) : Int) + 1) r c hset ?_
  omega

/-! ## Claim C6 -/

/-- C6: for every well-formed board and 4×4-shaped piece and candidate
position `(x, y)`, `canPlacePiece` returns true iff every set mask cell
has its absolute column in `[0, 10)`, its absolute row `< 20`, and, when
the absolute row is `≥ 0`, an empty target board cell; cells with a
negative absolute row are never tested against board contents. -/
theorem C6_canPlacePiece_characterization (board : Board) (t : Tetromino)
    (x y : Int) (hb : board.length = 20 ∧ ∀ row ∈ board, row.length = 10)
    (h1 : t.shape.length = 4) (h2 : ∀ r ∈ t.shape, r.length = 4) :
    canPlacePiece board t x y = true ↔
      ∀ r c : Nat, r < 4 → c < 4 → shapeCell t.shape r c ≠ 0 →
        0 ≤ x + c ∧ x + c < 10 ∧ y + r < 20 ∧
          (0 ≤ y + r → (cellAt board (y + r).toNat (x + c).toNat).isSome = false) :=
  canPlace_spec board t x y h1 h2

/-- Witness for C6 at the I piece over the empty board at `(3, 18)`. -/
theorem C6_witness :
    canPlacePiece createEmptyBoard (createTetromino Tet.I) 3 18 = true ↔
      ∀ r c : Nat, r < 4 → c < 4 →
        shapeCell (createTetromino Tet.I).shape r c ≠ 0 →
          0 ≤ (3 : Int) + c ∧ (3 : Int) + c < 10 ∧ (18 : Int) + r < 20 ∧
            (0 ≤ (18 : Int) + r →
              (cellAt createEmptyBoard ((18 : Int) + r).toNat ((3 : Int) + c).toNat).isSome
                = false) :=
  C6_canPlacePiece_characterization createEmptyBoard (createTetromino Tet.I) 3 18
    ⟨by decide, by decide⟩ (by decide) (by decide)

/-! ## Claim C8 -/

/-- C8: for every board and every piece with a set mask cell that is
placeable at its current position, the hard-drop distance `d` (a `Nat`,
hence `≥ 0`) satisfies `canPlacePiece` at `y + d` and its failure at
`y + d + 1`. -/
theorem C8_hardDropDistance_correct (board : Board) (t : Tetromino) (r c : Nat)
    (hset : shapeCell t.shape r c ≠ 0)
    (hplace : canPlacePiece board t t.x t.y = true) :
    canPlacePiece board t t.x (t.y + (getHardDropDistance board t : Int)) = true ∧
    canPlacePiece board t t.x (t.y + (getHardDropDistance board t : Int) + 1) = false := by
  have hsome := hardDrop_fuel_reaches board t r c hset
  obtain ⟨d', hd'⟩ := Option.isSome_iff_exists.mp hsome
  have hdist : getHardDropDistance board t = d' := by
    unfold getHardDropDistance
    rw [hd']
    rfl
  obtain ⟨-, hfalse, hall⟩ := hardDropLoop_sound board t _ 0 d' hd'
  rw [hdist]
  constructor
  · cases d' with
    | zero => simpa using hplace
    | succ k =>
      have hcp := hall k (Nat.zero_le k) (by omega)
      have heq : t.y + ((k + 1 : Nat) : Int) = t.y + (k : Int) + 1 := by
        push_cast
        ring
      rw [heq]
      exact hcp
  · exact hfalse

/-- Witness for C8: the I piece dropped through the empty board. -/
theorem C8_witness :
    canPlacePiece createEmptyBoard (createTetromino Tet.I) (createTetromino Tet.I).x
      ((createTetromino Tet.I).y
        + (getHardDropDistance createEmptyBoard (createTetromino Tet.I) : Int)) = true ∧
    canPlacePiece createEmptyBoard (createTetromino Tet.I) (createTetromino Tet.I).x
      ((createTetromino Tet.I).y
        + (getHardDropDistance createEmptyBoard (createTetromino Tet.I) : Int) + 1) = false :=
  C8_hardDropDistance_correct createEmptyBoard (createTetromino Tet.I) 1 0
    (by decide) (by decide)

/-! ## Claim C10 -/

/-- A piece whose 4×4 mask has no set cell, to exhibit the degenerate
case of `getHardDropDistance`. -/
def zeroPiece : Tetromino :=
  { type := Tet.I, x := 3, y := -1, rotation := 0, shape := zeroMask }

/-- C10: with at least one set mask cell the incrementing loop of
`getHardDropDistance` terminates (it exits within the stated fuel); the
precondition is required, since with an all-zero mask `canPlacePiece` is
true at every position and the loop never exits, at any fuel. -/
theorem C10_hardDrop_termination (board : Board) (t tz : Tetromino) (r c : Nat)
    (hset : shapeCell t.shape r c ≠ 0)
    (hz : ∀ r' c' : Nat, shapeCell tz.shape r' c' = 0) :
    (hardDropLoop board t ((20 - t.y).toNat + 1) 0).isSome = true ∧
    (∀ x y : Int, canPlacePiece board tz x y = true) ∧
    (∀ fuel d : Nat, hardDropLoop board tz fuel d = none) := by
  have hzplace : ∀ x y : Int, canPlacePiece board tz x y = true := by
    intro x y
    unfold canPlacePiece
    rw [List.all_eq_true]
    intro row hrow
    rw [List.all_eq_true]
    intro col hcol
    rw [if_neg (fun hcontra => hcontra (hz row col))]
  refine ⟨hardDrop_fuel_reaches board t r c hset, hzplace, ?_⟩
  intro fuel
  induction fuel with
  | zero => intro d; rfl
  | succ fuel ih =>
    intro d
    unfold hardDropLoop
    rw [if_pos (hzplace tz.x (tz.y + d + 1))]
    exact ih (d + 1)

/-- Witness for C10: the I piece terminates over the empty board; the
all-zero piece never lets the loop exit. -/
theorem C10_witness :
    (hardDropLoop createEmptyBoard (createTetromino Tet.I)
      ((20 - (createTetromino Tet.I).y).toNat + 1) 0).isSome = true ∧
    (∀ x y : Int, canPlacePiece createEmptyBoard zeroPiece x y = true) ∧
    (∀ fuel d : Nat, hardDropLoop createEmptyBoard zeroPiece fuel d = none) :=
  C10_hardDrop_termination createEmptyBoard (createTetromino Tet.I) zeroPiece 1 0
    (by decide) zeroMask_shapeCell

/-! ## Claim C7 -/

theorem filterMap_range_keep {α : Type} (d : α) (p : α → Bool) :
    ∀ l : List α,
      ((List.range l.length).filterMap fun y =>
        if p ((l.get? y).getD d) then none else some ((l.get? y).getD d)) =
      l.filter fun r => ! p r := by
  intro l
  induction l with
  | nil => rfl
  | cons a tl ih =>
    rw [List.length_cons, List.range_succ_eq_map]
    have ih' := ih
    simp only [List.get?_eq_getElem?] at ih'
    cases hpa : p a <;>
      simp [hpa, List.filterMap_cons, List.filterMap_map, Function.comp_def,
        List.get?_cons_succ, List.getElem?_cons_succ, Nat.succ_eq_add_one, ih',
        List.filter_cons]

theorem length_filter_range_get {α : Type} (d : α) (p : α → Bool) :
    ∀ l : List α,
      ((List.range l.length).filter fun y => p ((l.get? y).getD d)).length =
        l.countP p := by
  intro l
  induction l with
  | nil => rfl
  | cons a tl ih =>
    rw [List.length_cons, List.range_succ_eq_map]
    have ih' := ih
    simp only [List.get?_eq_getElem?] at ih'
    cases hpa : p a <;>
      simp [hpa, List.filter_cons, List.filter_map, Function.comp_def,
        List.get?_cons_succ, List.getElem?_cons_succ, Nat.succ_eq_add_one, ih',
        List.countP_cons]

theorem mem_findCompleteLines (b : Board) (y : Nat) (hy : y < 20) :
    y ∈ findCompleteLines b ↔ isCompleteRow ((b.get? y).getD []) = true := by
  unfold findCompleteLines BOARD_HEIGHT
  rw [List.mem_filter, List.mem_range]
  simp [hy]

/-- C7: on a 20×10 board, `clearLines` removes exactly the complete rows,
keeps the remaining rows in order below freshly prepended empty rows,
restores the 20×10 dimensions, and returns the number of removed rows;
with no complete row it returns the original board with count 0. -/
theorem C7_clearLines_correct (b : Board) (hlen : b.length = 20)
    (hrow : ∀ r ∈ b, r.length = 10) :
    clearLines b =
      (List.replicate (b.countP isCompleteRow) (List.replicate 10 none)
          ++ b.filter (fun r => ! isCompleteRow r),
        b.countP isCompleteRow) ∧
    (clearLines b).1.length = 20 ∧
    (∀ r ∈ (clearLines b).1, r.length = 10) ∧
    (b.countP isCompleteRow = 0 → clearLines b = (b, 0)) := by
  have hcount : (findCompleteLines b).length = b.countP isCompleteRow := by
    unfold findCompleteLines BOARD_HEIGHT
    rw [← hlen]
    exact length_filter_range_get [] isCompleteRow b
  have hkept :
      ((List.range 20).filterMap fun y =>
        if y ∈ findCompleteLines b then none else some ((b.get? y).getD [])) =
      b.filter fun r => ! isCompleteRow r := by
    have hcong :
        ((List.range 20).filterMap fun y =>
          if y ∈ findCompleteLines b then none else some ((b.get? y).getD [])) =
        ((List.range 20).filterMap fun y =>
          if isCompleteRow ((b.get? y).getD []) then none
          else some ((b.get? y).getD [])) := by
      apply List.filterMap_congr
      intro y hy
      rw [List.mem_range] at hy
      by_cases hmem : isCompleteRow ((b.get? y).getD []) = true
      · rw [if_pos hmem, if_pos ((mem_findCompleteLines b y hy).mpr hmem)]
      · rw [if_neg hmem,
          if_neg (fun hcontra => hmem ((mem_findCompleteLines b y hy).mp hcontra))]
    rw [hcong, ← hlen]
    exact filterMap_range_keep [] isCompleteRow b
  have hkeptlen : (b.filter fun r => ! isCompleteRow r).length
      = 20 - b.countP isCompleteRow := by
    have h1 : (b.filter fun r => ! isCompleteRow r).length
        = b.countP fun r => ! isCompleteRow r :=
      (List.countP_eq_length_filter _ _).symm
    have h2 : b.length = b.countP isCompleteRow
        + b.countP fun r => ! isCompleteRow r := by
      simpa using b.length_eq_countP_add_countP isCompleteRow
    omega
  have hcle : b.countP isCompleteRow ≤ 20 := by
    have := List.countP_le_length (l := b) isCompleteRow
    omega
  have hmain : clearLines b =
      (List.replicate (b.countP isCompleteRow) (List.replicate 10 none)
          ++ b.filter (fun r => ! isCompleteRow r),
        b.countP isCompleteRow) := by
    by_cases h0 : (findCompleteLines b).length = 0
    · have hc0 : b.countP isCompleteRow = 0 := by omega
      have hfilter : b.filter (fun r => ! isCompleteRow r) = b :=
        List.filter_eq_self.mpr fun a ha => by
          have := List.countP_eq_zero.mp hc0 a ha
          simp [this]
      simp only [clearLines]
      rw [if_pos h0, hc0, hfilter]
      rfl
    · simp only [clearLines, BOARD_HEIGHT, BOARD_WIDTH]
      rw [if_neg h0, hkept, hcount, hkeptlen]
      have h20 : 20 - (20 - b.countP isCompleteRow) = b.countP isCompleteRow := by
        omega
      rw [h20]
  refine ⟨hmain, ?_, ?_, ?_⟩
  · rw [hmain]
    simp only [List.length_append, List.length_replicate, hkeptlen]
    omega
  · rw [hmain]
    intro r hr
    rcases List.mem_append.mp hr with hr | hr
    · rw [List.eq_of_mem_replicate hr]
      exact List.length_replicate 10 none
    · exact hrow r (List.mem_of_mem_filter hr)
  · intro hc0
    have h0 : (findCompleteLines b).length = 0 := by omega
    simp only [clearLines]
    rw [if_pos h0]

/-- Witness for C7: a board whose bottom row is complete. -/
theorem C7_witness :
    clearLines (List.replicate 19 (List.replicate 10 (none : Cell))
        ++ [List.replicate 10 (some Tet.I)]) =
      (List.replicate ((List.replicate 19 (List.replicate 10 (none : Cell))
            ++ [List.replicate 10 (some Tet.I)]).countP isCompleteRow)
          (List.replicate 10 none)
        ++ (List.replicate 19 (List.replicate 10 (none : Cell))
            ++ [List.replicate 10 (some Tet.I)]).filter (fun r => ! isCompleteRow r),
        (List.replicate 19 (List.replicate 10 (none : Cell))
            ++ [List.replicate 10 (some Tet.I)]).countP isCompleteRow) ∧
    (clearLines (List.replicate 19 (List.replicate 10 (none : Cell))
        ++ [List.replicate 10 (some Tet.I)])).1.length = 20 ∧
    (∀ r ∈ (clearLines (List.replicate 19 (List.replicate 10 (none : Cell))
        ++ [List.replicate 10 (some Tet.I)])).1, r.length = 10) ∧
    ((List.replicate 19 (List.replicate 10 (none : Cell))
        ++ [List.replicate 10 (some Tet.I)]).countP isCompleteRow = 0 →
      clearLines (List.replicate 19 (List.replicate 10 (none : Cell))
        ++ [List.replicate 10 (some Tet.I)]) =
        (List.replicate 19 (List.replicate 10 (none : Cell))
          ++ [List.replicate 10 (some Tet.I)], 0)) :=
  C7_clearLines_correct
    (List.replicate 19 (List.replicate 10 (none : Cell))
      ++ [List.replicate 10 (some Tet.I)])
    (by decide) (by decide)

/-! ## Claim C5 -/

/-- C5: the reducer is a total function (it is defined for every state
and action and returns a state, never a fault); Move, Rotate, SoftDrop,
HardDrop and Hold while paused, while game over, or with no current piece
return the state unchanged, and an unknown action tag is a no-op. -/
theorem C5_reducer_total_noops (s : GameState) (dx dy : Int) (tag : String) :
    ((s.isPaused = true ∨ s.isGameOver = true ∨ s.currentPiece = none) →
      gameStateReducer s (.movePiece dx dy) = s ∧
      gameStateReducer s .rotatePiece = s ∧
      gameStateReducer s .softDrop = s ∧
      gameStateReducer s .hardDrop = s ∧
      gameStateReducer s .holdPieceAction = s) ∧
    gameStateReducer s (.unknown tag) = s := by
  constructor
  · intro h
    cases hc : s.currentPiece with
    | none =>
      refine ⟨?_, ?_, ?_, ?_, ?_⟩ <;> simp [gameStateReducer, hc]
    | some cur =>
      have hpg : s.isPaused = true ∨ s.isGameOver = true := by
        rcases h with h | h | h
        · exact Or.inl h
        · exact Or.inr h
        · rw [hc] at h; exact Option.noConfusion h
      have hhold : s.isPaused = true ∨ s.isGameOver = true ∨ s.canHold = false := by
        rcases hpg with h | h
        · exact Or.inl h
        · exact Or.inr (Or.inl h)
      refine ⟨?_, ?_, ?_, ?_, ?_⟩
      · simp only [gameStateReducer, hc]; rw [if_pos hpg]
      · simp only [gameStateReducer, hc]; rw [if_pos hpg]
      · simp only [gameStateReducer, hc]; rw [if_pos hpg]
      · simp only [gameStateReducer, hc]; rw [if_pos hpg]
      · simp only [gameStateReducer, hc]; rw [if_pos hhold]
  · rfl

/-- A paused mid-game state, for the C5 witness. -/
def pausedState : GameState :=
  { createInitialGameState "" with
      isPaused := true
      gameState := .paused
      currentPiece := some (createTetromino Tet.T) }

/-- Witness for C5 at a paused state with a current piece. -/
theorem C5_witness :
    (gameStateReducer pausedState (.movePiece 1 0) = pausedState ∧
     gameStateReducer pausedState .rotatePiece = pausedState ∧
     gameStateReducer pausedState .softDrop = pausedState ∧
     gameStateReducer pausedState .hardDrop = pausedState ∧
     gameStateReducer pausedState .holdPieceAction = pausedState) ∧
    gameStateReducer pausedState (.unknown "bogus") = pausedState :=
  ⟨(C5_reducer_total_noops pausedState 1 0 "bogus").1 (Or.inl rfl),
   (C5_reducer_total_noops pausedState 1 0 "bogus").2⟩

/-! ## Claim C4 -/

/-- C4: over the engine commands (everything except the persistence-load
merge), `isGameOver` turns from false to true only through `SPAWN_PIECE`
when the promoted next piece cannot be placed at its spawn position; and
once `isGameOver` holds, Move, Rotate, SoftDrop and HardDrop return the
state unchanged, every field included. -/
theorem C4_gameOver_transitions (s : GameState) (a : GameAction) (dx dy : Int) :
    (s.isGameOver = false → (∀ g, a ≠ .loadState g) →
      (gameStateReducer s a).isGameOver = true →
        ∃ rand np, a = .spawnPiece rand ∧ s.nextPiece = some np ∧
          canPlacePiece s.board np np.x np.y = false) ∧
    (s.isGameOver = true →
      gameStateReducer s (.movePiece dx dy) = s ∧
      gameStateReducer s .rotatePiece = s ∧
      gameStateReducer s .softDrop = s ∧
      gameStateReducer s .hardDrop = s) := by
  constructor
  · intro hfalse hnl hres
    have hfP : ¬ (s.isGameOver = true) := by rw [hfalse]; simp
    cases a with
    | loadState g => exact absurd rfl (hnl g)
    | initializeGame pn =>
      exact absurd hres (by simp [gameStateReducer, createInitialGameState])
    | resetGame =>
      exact absurd hres (by simp [gameStateReducer, createInitialGameState])
    | startGame rand =>
      exact absurd hres (by simp [gameStateReducer])
    | pauseGame =>
      exfalso
      simp only [gameStateReducer] at hres
      split_ifs at hres <;> try simp at hres
      all_goals exact absurd hres hfP
    | resumeGame =>
      exfalso
      simp only [gameStateReducer] at hres
      split_ifs at hres <;> try simp at hres
      all_goals exact absurd hres hfP
    | unknown tag => exact absurd hres hfP
    | movePiece dX dY =>
      exfalso
      cases hc : s.currentPiece with
      | none => simp only [gameStateReducer, hc] at hres; exact absurd hres hfP
      | some cur =>
        simp only [gameStateReducer, hc] at hres
        split_ifs at hres <;> try simp at hres
        all_goals exact absurd hres hfP
    | rotatePiece =>
      exfalso
      cases hc : s.currentPiece with
      | none => simp only [gameStateReducer, hc] at hres; exact absurd hres hfP
      | some cur =>
        simp only [gameStateReducer, hc] at hres
        split_ifs at hres <;> try simp at hres
        all_goals exact absurd hres hfP
    | softDrop =>
      exfalso
      cases hc : s.currentPiece with
      | none => simp only [gameStateReducer, hc] at hres; exact absurd hres hfP
      | some cur =>
        simp only [gameStateReducer, hc] at hres
        split_ifs at hres <;> try simp at hres
        all_goals exact absurd hres hfP
    | hardDrop =>
      exfalso
      cases hc : s.currentPiece with
      | none => simp only [gameStateReducer, hc] at hres; exact absurd hres hfP
      | some cur =>
        simp only [gameStateReducer, hc] at hres
        split_ifs at hres <;> try simp at hres
        all_goals exact absurd hres hfP
    | placePieceAction =>
      exfalso
      cases hc : s.currentPiece with
      | none => simp only [gameStateReducer, hc] at hres; exact absurd hres hfP
      | some cur =>
        simp only [gameStateReducer, hc] at hres
        exact absurd hres hfP
    | holdPieceAction =>
      exfalso
      cases hc : s.currentPiece with
      | none => simp only [gameStateReducer, hc] at hres; exact absurd hres hfP
      | some cur =>
        simp only [gameStateReducer, hc] at hres
        split_ifs at hres
        · exact absurd hres hfP
        · cases hh : s.holdPiece <;> rw [hh] at hres <;> simp at hres <;>
            exact absurd hres hfP
    | spawnPiece rand =>
      cases hc : s.nextPiece with
      | none =>
        exfalso
        simp only [gameStateReducer, hc] at hres
        exact absurd hres hfP
      | some np =>
        by_cases hgo : isGameOver s.board np = true
        · refine ⟨rand, np, rfl, rfl, ?_⟩
          unfold isGameOver at hgo
          simpa using hgo
        · exfalso
          simp only [gameStateReducer, hc] at hres
          rw [if_neg hfP, if_neg hgo] at hres
          simp at hres
          exact absurd hres hfP
  · intro htrue
    have hor : ∀ cur : Tetromino, s.currentPiece = some cur →
        (s.isPaused = true ∨ s.isGameOver = true) := fun _ _ => Or.inr htrue
    refine ⟨?_, ?_, ?_, ?_⟩ <;>
      (cases hc : s.currentPiece with
       | none => simp [gameStateReducer, hc]
       | some cur =>
         simp only [gameStateReducer, hc]
         rw [if_pos (hor cur hc)])

/-- A terminal (game-over) state, for the C4 witness. -/
def gameOverState : GameState :=
  { createInitialGameState "" with
      isGameOver := true
      gameState := .game_over
      currentPiece := some (createTetromino Tet.T) }

/-- A playing state whose next piece is blocked at spawn, for the C4
witness: cell `(0, 4)` is occupied, which blocks the O piece at spawn. -/
def blockedState : GameState :=
  { createInitialGameState "" with
      gameState := .playing
      currentPiece := some (createTetromino Tet.T)
      nextPiece := some (createTetromino Tet.O)
      board := setCell createEmptyBoard 0 4 (some Tet.I)
      tetrominoBag := [Tet.I, Tet.S]
      bagIndex := 0 }

/-- Witness for C4: a game-over state absorbs Move, and a blocked spawn
is the only source of a false-to-true `isGameOver` step. -/
theorem C4_witness :
    gameStateReducer gameOverState (.movePiece 1 0) = gameOverState ∧
    ∃ rand np, (GameAction.spawnPiece [0] : GameAction) = .spawnPiece rand ∧
      blockedState.nextPiece = some np ∧
      canPlacePiece blockedState.board np np.x np.y = false :=
  ⟨((C4_gameOver_transitions gameOverState (.movePiece 1 0) 1 0).2 rfl).1,
   (C4_gameOver_transitions blockedState (.spawnPiece [0]) 1 0).1 rfl
     (fun g h => GameAction.noConfusion h) (by decide)⟩

/-! ## Claim C2 -/

/-- C2 counterexample: of the two functions the claim points at, the
game-loop one (`useGame.js`) returns 900, not 1000, at level 1, and the
scoring one (`scoring.js`) returns 500, not the 50 floor, at level 11;
neither computes `max(50, 1000 - (level-1)·100)`. -/
theorem C2_counterexample :
    UseGame.calculateDropSpeed 1 ≠ 1000 ∧ UseGame.calculateDropSpeed 1 = 900 ∧
    Scoring.calculateDropSpeed 11 ≠ 50 ∧ Scoring.calculateDropSpeed 11 = 500 := by
  refine ⟨by decide, by decide, by decide, by decide⟩

/-- C2 (amended): the repository has three drop-interval functions. Only
`gameLogic.js`'s `calculateDropSpeed` computes
`max(50, 1000 - (level-1)·100)` (1000 at level 1, clamped to 50 at
level 11); the game-loop cadence function of `useGame.js` computes
`max(50, 1000 - level·100)` (900 at level 1, already 50 at level 10);
`scoring.js`'s computes `max(50, 1000 - (level-1)·50)` (500 at
level 11). -/
theorem C2_dropSpeed_amended (level : Int) (h : 1 ≤ level) :
    GameLogic.calculateDropSpeed level = max 50 (1000 - (level - 1) * 100) ∧
    GameLogic.calculateDropSpeed 1 = 1000 ∧
    GameLogic.calculateDropSpeed 11 = 50 ∧
    UseGame.calculateDropSpeed level = max 50 (1000 - level * 100) ∧
    UseGame.calculateDropSpeed 1 = 900 ∧
    UseGame.calculateDropSpeed 10 = 50 ∧
    Scoring.calculateDropSpeed level = max 50 (1000 - (level - 1) * 50) ∧
    Scoring.calculateDropSpeed 11 = 500 := by
  refine ⟨rfl, by decide, by decide, ?_, by decide, by decide, rfl, by decide⟩
  unfold UseGame.calculateDropSpeed
  exact max_comm _ _

/-- Witness for C2 (amended) at level 3. -/
theorem C2_witness :
    GameLogic.calculateDropSpeed 3 = max 50 (1000 - (3 - 1) * 100) ∧
    GameLogic.calculateDropSpeed 1 = 1000 ∧
    GameLogic.calculateDropSpeed 11 = 50 ∧
    UseGame.calculateDropSpeed 3 = max 50 (1000 - 3 * 100) ∧
    UseGame.calculateDropSpeed 1 = 900 ∧
    UseGame.calculateDropSpeed 10 = 50 ∧
    Scoring.calculateDropSpeed 3 = max 50 (1000 - (3 - 1) * 50) ∧
    Scoring.calculateDropSpeed 11 = 500 :=
  C2_dropSpeed_amended 3 (by decide)

/-! ## Claim C9 -/

/-- C9 counterexample: the JS remainder does not normalize negative
rotations: at rotation `-1` the table index is `-1` and the shape read is
`undefined` (`none`), not a well-defined 4×4 mask. -/
theorem C9_counterexample :
    createTetrominoShapeField Tet.T (-1) = none := by decide

/-- C9 (amended): the rotation is reduced with the JS remainder operator
before the table lookup, which normalizes only nonnegative rotations: for
every kind and every nonnegative integer rotation the lookup yields a
well-defined 4×4 mask with entries in {0, 1}; for a negative rotation not
divisible by 4 the index is negative and the lookup is undefined. -/
theorem C9_shape_lookup_amended (type : Tet) (r : Int) (h : 0 ≤ r) :
    ∃ m, createTetrominoShapeField type r = some m ∧ m.length = 4 ∧
      ∀ row ∈ m, row.length = 4 ∧ ∀ v ∈ row, v = 0 ∨ v = 1 := by
  have h0 : 0 ≤ r.tmod 4 := Int.tmod_nonneg 4 h
  have h4 : r.tmod 4 < 4 := by
    have := Int.tmod_lt_of_pos r (b := 4) (by norm_num)
    omega
  have hn : (r.tmod 4).toNat < 4 := by omega
  unfold createTetrominoShapeField jsArrayGet
  rw [if_pos h0]
  set n := (r.tmod 4).toNat with hdefn
  clear_value n
  interval_cases n <;> cases type <;>
    exact ⟨_, rfl, by decide, by decide⟩

/-- Witness for C9 (amended) at the T kind and rotation 5. -/
theorem C9_witness :
    ∃ m, createTetrominoShapeField Tet.T 5 = some m ∧ m.length = 4 ∧
      ∀ row ∈ m, row.length = 4 ∧ ∀ v ∈ row, v = 0 ∨ v = 1 :=
  C9_shape_lookup_amended Tet.T 5 (by decide)

/-! ## Claim C1 -/

/-- The injected draws `[6,5,4,3,2,1]` make the Fisher–Yates swaps
no-ops, so `createTetrominoBag` returns `TETROMINO_TYPES` itself. -/
def identityRand : List Nat := [6, 5, 4, 3, 2, 1]

/-- The state right after `START_GAME` with the identity bag. -/
def c1StartState : GameState :=
  gameStateReducer (createInitialGameState "") (.startGame identityRand)

/-- One `SPAWN_PIECE` step (the fresh bag, if drawn, is again the
identity bag). -/
def c1Spawn (s : GameState) : GameState :=
  gameStateReducer s (.spawnPiece identityRand)

/-- The current-piece kinds over the start and the first four spawns. -/
def c1CurrentKinds : List (Option Tet) :=
  [c1StartState,
   c1Spawn c1StartState,
   c1Spawn (c1Spawn c1StartState),
   c1Spawn (c1Spawn (c1Spawn c1StartState)),
   c1Spawn (c1Spawn (c1Spawn (c1Spawn c1StartState)))].map
    fun s => s.currentPiece.map (·.type)

/-- C1: evaluation at the failing input. The first bag is
`[I,O,T,S,Z,J,L]`; sequential consumption would spawn `T` third, but
`START_GAME` stores `tetrominoBag = bag.slice(2)` (five kinds) while
keeping `bagIndex = 2`, so the first spawn reads `slice[2] = bag[4]` and
the kinds `T = bag[2]` and `S = bag[3]` are never drawn from the first
bag: the played sequence is `I, O, Z, J, L` and then the next bag. -/
theorem C1_bag_skips_two_kinds :
    createTetrominoBag identityRand = [.I, .O, .T, .S, .Z, .J, .L] ∧
    c1StartState.tetrominoBag = [.T, .S, .Z, .J, .L] ∧
    c1StartState.bagIndex = 2 ∧
    c1CurrentKinds = [some .I, some .O, some .Z, some .J, some .L] ∧
    some Tet.T ∉ c1CurrentKinds ∧
    some Tet.S ∉ c1CurrentKinds := by
  refine ⟨by decide, by decide, by decide, by decide, by decide, by decide⟩

/-! ## Claim C3 -/

/-- A playing state whose current piece is a T rotated once (rotation
index 1), with nothing held. -/
def c3State : GameState :=
  { createInitialGameState "" with
      gameState := .playing
      currentPiece := some (rotateTetromino (createTetromino Tet.T))
      nextPiece := some (createTetromino Tet.O) }

/-- C3: evaluation at the failing input. After Hold, the held piece gets
`x = 3`, `y = -1`, `rotation = 0`, the current piece becomes the former
next piece, `canHold` turns false and a second Hold is a no-op — but the
held piece keeps the rotation-1 occupancy shape instead of the
rotation-0 shape of its kind, contradicting the full reset the claim
states. -/
theorem C3_hold_keeps_stale_shape :
    (gameStateReducer c3State .holdPieceAction).holdPiece =
      some { type := Tet.T, x := 3, y := -1, rotation := 0,
             shape := shapeOf Tet.T 1 } ∧
    shapeOf Tet.T 1 ≠ shapeOf Tet.T 0 ∧
    (gameStateReducer c3State .holdPieceAction).currentPiece =
      some (createTetromino Tet.O) ∧
    (gameStateReducer c3State .holdPieceAction).canHold = false ∧
    gameStateReducer (gameStateReducer c3State .holdPieceAction)
        .holdPieceAction =
      gameStateReducer c3State .holdPieceAction := by
  refine ⟨by decide, by decide, by decide, by decide, by decide⟩
